import Mathlib

/-!
Shallow embedding of the isometric avatar locomotion and floorplan-editor
logic of the Phaser-Habbo-Engine repository.

Numbers: JavaScript floating-point values are modelled by the rationals ℚ
(the program only ever does +, -, *, /, min, floor and round on them, and the
claims are about exact values).  `Date.now()` timestamps are passed in as an
explicit `now : ℚ` argument to the operations that read the clock.

The avatar state mirrors the private fields of `HabboAvatarSprite`
(`src/packages/renderer/src/entities/HabboAvatarSprite.ts`); rendering-only
calls (`updateSprite`, the Phaser container) have no effect on those fields
and are dropped, except that the screen-position computation of
`updateScreenPosition` is kept as the pure function `avatarScreenPos`.
-/

namespace Habbo

/-- JavaScript `Math.round`: round half away from zero is NOT what JS does;
JS rounds half toward +∞, i.e. `Math.round(q) = ⌊q + 1/2⌋`. -/
def jsRound (q : ℚ) : ℤ := ⌊q + 1/2⌋

/-- The `Vector3` value class (x, y, z components). -/
structure Vector3 where
  x : ℚ
  y : ℚ
  z : ℚ
deriving DecidableEq

/-- The locomotion-relevant fields of `HabboAvatarSprite`. -/
structure AvatarState where
  position : Vector3
  direction : ℤ
  isWalking : Bool
  currentPath : List Vector3
  currentTarget : Option Vector3
  moveStartTime : ℚ
  moveDuration : ℚ
  moveStartPos : Vector3
  frameCounter : ℕ
  frameUpdateCounter : ℕ
  frameUpdateInterval : ℕ
deriving DecidableEq

/-- The constructor `HabboAvatarSprite(scene, id, username, startX, startY, startZ)`:
initial field values of a fresh avatar. -/
def mkAvatar (startX startY startZ : ℚ) : AvatarState :=
  { position := ⟨startX, startY, startZ⟩
    direction := 2
    isWalking := false
    currentPath := []
    currentTarget := none
    moveStartTime := 0
    moveDuration := 500
    moveStartPos := ⟨0, 0, 0⟩
    frameCounter := 0
    frameUpdateCounter := 0
    frameUpdateInterval := 3 }

/-- Source `calculateDirection(from, to)`: sign pattern of the delta picks one of the
8 headings; the `(0,0)` delta falls through to the current direction. -/
def calculateDirection (f t : Vector3) (current : ℤ) : ℤ :=
  let dx := t.x - f.x
  let dy := t.y - f.y
  if dx = 0 ∧ dy < 0 then 0
  else if dx > 0 ∧ dy < 0 then 1
  else if dx > 0 ∧ dy = 0 then 2
  else if dx > 0 ∧ dy > 0 then 3
  else if dx = 0 ∧ dy > 0 then 4
  else if dx < 0 ∧ dy > 0 then 5
  else if dx < 0 ∧ dy = 0 then 6
  else if dx < 0 ∧ dy < 0 then 7
  else current

/-- Source `walkTo(path)` at clock value `now` (`Date.now()`): empty path is a no-op;
otherwise, when already walking, the continuous position is first snapped by
rounding x and y (z kept); the first waypoint becomes the leg target, the rest
the pending path; direction, frame counters and the leg timer are reset. -/
def walkTo (s : AvatarState) (path : List Vector3) (now : ℚ) : AvatarState :=
  match path with
  | [] => s
  | t :: rest =>
    let pos : Vector3 :=
      if s.isWalking then
        ⟨(jsRound s.position.x : ℚ), (jsRound s.position.y : ℚ), s.position.z⟩
      else s.position
    { s with
      position := pos
      currentPath := rest
      currentTarget := some t
      isWalking := true
      frameCounter := 0
      frameUpdateCounter := 0
      direction := calculateDirection pos t s.direction
      moveStartTime := now
      moveStartPos := pos }

/-- Source `stop()`: return to Idle, clear path and target, reset both frame counters;
position and all other fields untouched (`updateSprite` is render-only). -/
def stop (s : AvatarState) : AvatarState :=
  { s with
    isWalking := false
    currentPath := []
    currentTarget := none
    frameCounter := 0
    frameUpdateCounter := 0 }

/-- Source `update(_time, _delta)` at clock value `now` (`Date.now()`): no-op unless
walking with a target; `progress = min(elapsed / moveDuration, 1)`; at
`progress >= 1` the position snaps to the target and either the next waypoint
is popped (timer restarted, frame counters reset) or `stop()` runs; below 1
the position is lerped component-wise and the frame cadence counter advances
the walk-cycle frame every `frameUpdateInterval` calls, modulo 4. -/
def update (s : AvatarState) (now : ℚ) : AvatarState :=
  if s.isWalking = false then s
  else
    match s.currentTarget with
    | none => s
    | some t =>
      let elapsed := now - s.moveStartTime
      let progress := min (elapsed / s.moveDuration) 1
      if 1 ≤ progress then
        let s1 := { s with position := t }
        match s.currentPath with
        | next :: rest =>
          { s1 with
            currentPath := rest
            currentTarget := some next
            direction := calculateDirection s1.position next s1.direction
            moveStartTime := now
            moveStartPos := s1.position
            frameCounter := 0
            frameUpdateCounter := 0 }
        | [] => stop s1
      else
        let pos : Vector3 :=
          ⟨s.moveStartPos.x + (t.x - s.moveStartPos.x) * progress,
           s.moveStartPos.y + (t.y - s.moveStartPos.y) * progress,
           s.moveStartPos.z + (t.z - s.moveStartPos.z) * progress⟩
        let fuc := s.frameUpdateCounter + 1
        if s.frameUpdateInterval ≤ fuc then
          { s with
            position := pos
            frameUpdateCounter := 0
            frameCounter := (s.frameCounter + 1) % 4 }
        else
          { s with position := pos, frameUpdateCounter := fuc }

/-- Source `isMoving()`. -/
def isMoving (s : AvatarState) : Bool := s.isWalking

/-- A sequence of `update` calls at the given clock values, in order. -/
def applyUpdates (s : AvatarState) (times : List ℚ) : AvatarState :=
  times.foldl update s

/-- Source `getTilePosition()`: floor of the continuous x and y. -/
def getTilePosition (s : AvatarState) : ℤ × ℤ :=
  (⌊s.position.x⌋, ⌊s.position.y⌋)

/-! ### Isometric projection

`IsometricEngine.tileToScreen` itself is outside the given sources (only its
call sites are), so it is modelled from the spec; everything layered on it
(`doorMaskTileBase`, `avatarScreenPos`) is translated from the sources. -/

/-- Modelled from the spec: `IsometricEngine.tileToScreen` is not among the
source files; per the spec's projection contract (each unit of tileX advances
the screen position by (+32, +16), each unit of tileY by (-32, +16), each unit
of height by (0, -32)) and the inline door-mask formula of
`createDoorMaskGraphics`, it is the pure affine map below. -/
def tileToScreen (tileX tileY height : ℚ) : ℚ × ℚ :=
  (32 * tileX - 32 * tileY, 16 * tileX + 16 * tileY - 32 * height)

/-- The inline `tileBase` computation of `createDoorMaskGraphics` (the door
mask anchors at tile (doorX + 1, doorY)). -/
def doorMaskTileBase (doorX doorY doorZ : ℚ) : ℚ × ℚ :=
  (32 * (doorX + 1) - 32 * doorY, 16 * (doorX + 1) + 16 * doorY - 32 * doorZ)

/-- Constant `MANUAL_OFFSET_X` of `updateScreenPosition`: +30 when the heading is drawn
flipped (directions 4, 5, 6), otherwise -35. -/
def manualOffsetX (direction : ℤ) : ℚ :=
  if direction = 4 ∨ direction = 5 ∨ direction = 6 then 30 else -35

/-- The container position computed by `updateScreenPosition`: project the
floored tile, then add the fractional offset and the direction-dependent
manual offset (`MANUAL_OFFSET_Y` is 0). -/
def avatarScreenPos (p : Vector3) (direction : ℤ) : ℚ × ℚ :=
  let base := tileToScreen (⌊p.x⌋ : ℚ) (⌊p.y⌋ : ℚ) p.z
  let fracX := p.x - (⌊p.x⌋ : ℚ)
  let fracY := p.y - (⌊p.y⌋ : ℚ)
  let sx := base.1 + 32 + (fracX - fracY) * 32
  let sy := base.2 + (fracX + fracY) * 16
  (sx + manualOffsetX direction, sy + 0)

/-! ### Floorplan editor (`FloorplanScene`) -/

/-- A floorplan tile (`Tile` of the renderer data model). -/
structure Tile where
  x : ℤ
  y : ℤ
  height : ℤ
  isBlocked : Bool
  walkable : Bool
deriving DecidableEq

/-- The enum `FloorAction` driving the editor. -/
inductive FloorAction where
  | SET
  | UNSET
  | UP
  | DOWN
  | DOOR
deriving DecidableEq

/-- The editor configuration fields read by `onClick`. -/
structure FloorplanConfig where
  currentAction : FloorAction
  currentHeight : ℤ
deriving DecidableEq

/-- The room state the editor mutates: the tile grid (indexed `tiles y x`,
mirroring `tiles[y][x]`) and the optional door coordinate `{x, y}`. -/
structure RoomData where
  tiles : ℕ → ℕ → Tile
  doorTile : Option (ℕ × ℕ)

/-- Point update of the grid at row `gy`, column `gx`. -/
def setTile (tiles : ℕ → ℕ → Tile) (gy gx : ℕ) (t : Tile) : ℕ → ℕ → Tile :=
  fun y x => if y = gy ∧ x = gx then t else tiles y x

/-- Source `createEmptyRoom()`: a 64×64 grid of unwalkable height-0 tiles, no door. -/
def createEmptyRoom : RoomData :=
  { tiles := fun y x => ⟨(x : ℤ), (y : ℤ), 0, false, false⟩
    doorTile := none }

/-- Source `onClick(gridX, gridY)`: the editor's five actions on the clicked tile. -/
def onClick (cfg : FloorplanConfig) (room : RoomData) (gridX gridY : ℕ) :
    RoomData :=
  let tile := room.tiles gridY gridX
  match cfg.currentAction with
  | FloorAction.SET =>
    { room with
      tiles := setTile room.tiles gridY gridX
        { tile with walkable := true, height := cfg.currentHeight } }
  | FloorAction.UNSET =>
    { room with
      tiles := setTile room.tiles gridY gridX
        { tile with walkable := false, height := 0 } }
  | FloorAction.UP =>
    if tile.walkable = true ∧ tile.height < 9 then
      { room with
        tiles := setTile room.tiles gridY gridX
          { tile with height := tile.height + 1 } }
    else room
  | FloorAction.DOWN =>
    if tile.walkable = true ∧ tile.height > 0 then
      { room with
        tiles := setTile room.tiles gridY gridX
          { tile with height := tile.height - 1 } }
    else room
  | FloorAction.DOOR =>
    if tile.walkable = true then { room with doorTile := some (gridX, gridY) }
    else room

/-- The data-model invariant: `doorTile`, when present, references a walkable
tile. -/
def doorWalkable (room : RoomData) : Prop :=
  ∀ d : ℕ × ℕ, room.doorTile = some d → (room.tiles d.2 d.1).walkable = true

/-- The data-model invariant: every tile height lies in 0..9. -/
def heightsInRange (room : RoomData) : Prop :=
  ∀ y x : ℕ, 0 ≤ (room.tiles y x).height ∧ (room.tiles y x).height ≤ 9

end Habbo

namespace Habbo

/-- Claim C7: `walkTo` with an empty path leaves every field of the avatar
state exactly as it was, from any starting state (including Moving). -/
theorem walkTo_empty_noop (s : AvatarState) (now : ℚ) :
    walkTo s [] now = s := rfl

/-- Claim C6: `stop()` transitions to Idle (`isMoving` false), empties the
pending path, clears the leg target, zeroes both frame counters, and leaves
the continuous position, direction, leg timer fields and duration unchanged. -/
theorem stop_spec (s : AvatarState) :
    isMoving (stop s) = false ∧
    (stop s).currentPath = [] ∧
    (stop s).currentTarget = none ∧
    (stop s).frameCounter = 0 ∧
    (stop s).frameUpdateCounter = 0 ∧
    (stop s).position = s.position ∧
    (stop s).direction = s.direction ∧
    (stop s).moveStartTime = s.moveStartTime ∧
    (stop s).moveStartPos = s.moveStartPos ∧
    (stop s).moveDuration = s.moveDuration ∧
    (stop s).frameUpdateInterval = s.frameUpdateInterval := by
  refine ⟨rfl, rfl, rfl, rfl, rfl, rfl, rfl, rfl, rfl, rfl, rfl⟩

/-- Claim C4: `calculateDirection` maps the sign pattern of the delta
`(dx, dy) = (to - from)` to the 8 headings of the convention 0=N .. 7=NW;
in particular `(1,-1)` gives 1 (NE), `(-1,0)` gives 6 (W), and the zero delta
returns the current heading unchanged. -/
theorem calculateDirection_sign_pattern (f t : Vector3) (c : ℤ) :
    (t.x - f.x = 0 ∧ t.y - f.y < 0 → calculateDirection f t c = 0) ∧
    (t.x - f.x > 0 ∧ t.y - f.y < 0 → calculateDirection f t c = 1) ∧
    (t.x - f.x > 0 ∧ t.y - f.y = 0 → calculateDirection f t c = 2) ∧
    (t.x - f.x > 0 ∧ t.y - f.y > 0 → calculateDirection f t c = 3) ∧
    (t.x - f.x = 0 ∧ t.y - f.y > 0 → calculateDirection f t c = 4) ∧
    (t.x - f.x < 0 ∧ t.y - f.y > 0 → calculateDirection f t c = 5) ∧
    (t.x - f.x < 0 ∧ t.y - f.y = 0 → calculateDirection f t c = 6) ∧
    (t.x - f.x < 0 ∧ t.y - f.y < 0 → calculateDirection f t c = 7) ∧
    (t.x - f.x = 0 ∧ t.y - f.y = 0 → calculateDirection f t c = c) := by
  refine ⟨?_, ?_, ?_, ?_, ?_, ?_, ?_, ?_, ?_⟩ <;> rintro ⟨h1, h2⟩
  · simp [calculateDirection, h1, h2]
  · simp [calculateDirection, h1, h2, ne_of_gt h1]
  · simp [calculateDirection, h1, h2, ne_of_gt h1]
  · simp [calculateDirection, h1, h2, ne_of_gt h1, ne_of_gt h2, asymm h2]
  · simp [calculateDirection, h1, h2, ne_of_gt h2, asymm h2]
  · simp [calculateDirection, h1, h2, ne_of_lt h1, asymm h1, ne_of_gt h2, asymm h2]
  · simp [calculateDirection, h1, h2, ne_of_lt h1, asymm h1]
  · simp [calculateDirection, h1, h2, ne_of_lt h1, asymm h1, ne_of_lt h2, asymm h2]
  · simp [calculateDirection, h1, h2]

/-- Claim C4 witness: delta (1, -1) from the origin yields heading 1. -/
theorem calculateDirection_sign_pattern_witness :
    calculateDirection ⟨0, 0, 0⟩ ⟨1, -1, 0⟩ 5 = 1 :=
  (calculateDirection_sign_pattern ⟨0, 0, 0⟩ ⟨1, -1, 0⟩ 5).2.1 (by norm_num)

/-- Claim C2: a `walkTo` with a non-empty path while Moving first snaps the
continuous position by rounding x and y independently (z kept), and that
snapped position is both the new position and the new leg-start position, and
the one facing is computed from; while Idle no snap occurs and the current
position is used unchanged as the leg start. -/
theorem walkTo_snap_on_redirect (s : AvatarState) (t : Vector3)
    (rest : List Vector3) (now : ℚ) :
    (s.isWalking = true →
      (walkTo s (t :: rest) now).position =
        ⟨(jsRound s.position.x : ℚ), (jsRound s.position.y : ℚ), s.position.z⟩ ∧
      (walkTo s (t :: rest) now).moveStartPos =
        ⟨(jsRound s.position.x : ℚ), (jsRound s.position.y : ℚ), s.position.z⟩ ∧
      (walkTo s (t :: rest) now).direction =
        calculateDirection
          ⟨(jsRound s.position.x : ℚ), (jsRound s.position.y : ℚ), s.position.z⟩
          t s.direction) ∧
    (s.isWalking = false →
      (walkTo s (t :: rest) now).position = s.position ∧
      (walkTo s (t :: rest) now).moveStartPos = s.position ∧
      (walkTo s (t :: rest) now).direction =
        calculateDirection s.position t s.direction) := by
  constructor <;> intro h <;> simp [walkTo, h]

/-- Claim C2 witness: redirect at fractional position (2.3, 4.7) snaps the new
leg start to (2, 5); the same call from Idle keeps (2.3, 4.7) unchanged. -/
theorem walkTo_snap_on_redirect_witness :
    ((walkTo { mkAvatar (23/10) (47/10) 0 with isWalking := true }
        [⟨3, 5, 0⟩] 1000).moveStartPos = ⟨2, 5, 0⟩) ∧
    ((walkTo (mkAvatar (23/10) (47/10) 0) [⟨3, 5, 0⟩] 1000).moveStartPos =
      ⟨23/10, 47/10, 0⟩) := by
  constructor
  · have h := (walkTo_snap_on_redirect
      { mkAvatar (23/10) (47/10) 0 with isWalking := true } ⟨3, 5, 0⟩ [] 1000).1 rfl
    rw [h.2.1]
    have hx : jsRound (23/10 : ℚ) = 2 := by norm_num [jsRound]
    have hy : jsRound (47/10 : ℚ) = 5 := by norm_num [jsRound]
    simp [mkAvatar, hx, hy]
  · have h := (walkTo_snap_on_redirect
      (mkAvatar (23/10) (47/10) 0) ⟨3, 5, 0⟩ [] 1000).2 rfl
    rw [h.2.1]
    rfl

/-- Characterization of a mid-leg `update` call (elapsed below the leg
duration): the position is lerped component-wise with
`progress = elapsed / moveDuration`, the frame cadence counter steps, and all
other fields are untouched. -/
theorem update_midLeg (s : AvatarState) (t : Vector3) (now : ℚ)
    (hw : s.isWalking = true) (ht : s.currentTarget = some t)
    (hdur : 0 < s.moveDuration) (hn : now - s.moveStartTime < s.moveDuration) :
    update s now =
      { s with
        position :=
          ⟨s.moveStartPos.x +
             (t.x - s.moveStartPos.x) * ((now - s.moveStartTime) / s.moveDuration),
           s.moveStartPos.y +
             (t.y - s.moveStartPos.y) * ((now - s.moveStartTime) / s.moveDuration),
           s.moveStartPos.z +
             (t.z - s.moveStartPos.z) * ((now - s.moveStartTime) / s.moveDuration)⟩
        frameUpdateCounter :=
          if s.frameUpdateInterval ≤ s.frameUpdateCounter + 1 then 0
          else s.frameUpdateCounter + 1
        frameCounter :=
          if s.frameUpdateInterval ≤ s.frameUpdateCounter + 1 then
            (s.frameCounter + 1) % 4
          else s.frameCounter } := by
  have hp : (now - s.moveStartTime) / s.moveDuration < 1 := (div_lt_one hdur).mpr hn
  have hmin : min ((now - s.moveStartTime) / s.moveDuration) 1 =
      (now - s.moveStartTime) / s.moveDuration := min_eq_left hp.le
  simp only [update, hw, ht, hmin, not_le.mpr hp, if_false, Bool.true_eq_false]
  split <;> rfl

/-- Claim C10: a mid-leg `update` interpolates the z component of the position
exactly as it does x and y (linearly from the leg-start position to the
target as progress advances, not held constant), and the redirect snap in
`walkTo` rounds only x and y, leaving z unchanged. -/
theorem update_lerps_z_like_xy (s : AvatarState) (t : Vector3) (now : ℚ)
    (hw : s.isWalking = true) (ht : s.currentTarget = some t)
    (hdur : 0 < s.moveDuration) (hn : now - s.moveStartTime < s.moveDuration) :
    ((update s now).position.x =
      s.moveStartPos.x +
        (t.x - s.moveStartPos.x) * ((now - s.moveStartTime) / s.moveDuration)) ∧
    ((update s now).position.y =
      s.moveStartPos.y +
        (t.y - s.moveStartPos.y) * ((now - s.moveStartTime) / s.moveDuration)) ∧
    ((update s now).position.z =
      s.moveStartPos.z +
        (t.z - s.moveStartPos.z) * ((now - s.moveStartTime) / s.moveDuration)) ∧
    (∀ (r : AvatarState) (w : Vector3) (ws : List Vector3) (m : ℚ),
      r.isWalking = true → (walkTo r (w :: ws) m).position.z = r.position.z) := by
  rw [update_midLeg s t now hw ht hdur hn]
  refine ⟨rfl, rfl, rfl, ?_⟩
  intro r w ws m hr
  simp [walkTo, hr]

/-- Claim C10 witness: walking from z = 0 toward a target at z = 2 with
duration 500, the update at elapsed time 250 puts the avatar at z = 1
(and x = y = 1/2 for the (1,1) target), mid-way in all three components. -/
theorem update_lerps_z_like_xy_witness :
    (0 : ℚ) - 0 < 500 ∧
    (update { mkAvatar 0 0 0 with
        isWalking := true
        currentTarget := some ⟨1, 1, 2⟩ } 250).position.z = 1 := by
  refine ⟨by norm_num, ?_⟩
  have h := (update_lerps_z_like_xy
    { mkAvatar 0 0 0 with isWalking := true, currentTarget := some ⟨1, 1, 2⟩ }
    ⟨1, 1, 2⟩ 250 rfl rfl (by norm_num [mkAvatar]) (by norm_num [mkAvatar])).2.2.1
  rw [h]
  norm_num [mkAvatar]

/-- Claim C3: while Moving mid-leg with cadence constant 3, the walk-cycle
frame advances exactly once per 3 `update` calls — unchanged after the first
and second call, stepped by one modulo 4 (cycling 0..3) on the third, with the
cadence counter back at 0 — and an `update` in the Idle state changes nothing
at all. -/
theorem frame_cadence_three (s : AvatarState) (t : Vector3) (n1 n2 n3 : ℚ)
    (hw : s.isWalking = true) (ht : s.currentTarget = some t)
    (hfc : s.frameUpdateCounter = 0) (hint : s.frameUpdateInterval = 3)
    (hdur : 0 < s.moveDuration)
    (h1 : n1 - s.moveStartTime < s.moveDuration)
    (h2 : n2 - s.moveStartTime < s.moveDuration)
    (h3 : n3 - s.moveStartTime < s.moveDuration) :
    (update s n1).frameCounter = s.frameCounter ∧
    (update (update s n1) n2).frameCounter = s.frameCounter ∧
    (update (update (update s n1) n2) n3).frameCounter = (s.frameCounter + 1) % 4 ∧
    (update (update (update s n1) n2) n3).frameUpdateCounter = 0 ∧
    (∀ (r : AvatarState) (m : ℚ), r.isWalking = false → update r m = r) := by
  have e1 := update_midLeg s t n1 hw ht hdur h1
  have hw1 : (update s n1).isWalking = true := by rw [e1]; exact hw
  have ht1 : (update s n1).currentTarget = some t := by rw [e1]; exact ht
  have hdur1 : 0 < (update s n1).moveDuration := by rw [e1]; exact hdur
  have h2a : n2 - (update s n1).moveStartTime < (update s n1).moveDuration := by
    rw [e1]; exact h2
  have e2 := update_midLeg (update s n1) t n2 hw1 ht1 hdur1 h2a
  have hw2 : (update (update s n1) n2).isWalking = true := by rw [e2, e1]; exact hw
  have ht2 : (update (update s n1) n2).currentTarget = some t := by
    rw [e2, e1]; exact ht
  have hdur2 : 0 < (update (update s n1) n2).moveDuration := by
    rw [e2, e1]; exact hdur
  have h3a : n3 - (update (update s n1) n2).moveStartTime <
      (update (update s n1) n2).moveDuration := by rw [e2, e1]; exact h3
  have e3 := update_midLeg (update (update s n1) n2) t n3 hw2 ht2 hdur2 h3a
  refine ⟨?_, ?_, ?_, ?_, ?_⟩
  · rw [e1]; simp [hint, hfc]
  · rw [e2, e1]; simp [hint, hfc]
  · rw [e3, e2, e1]; simp [hint, hfc]
  · rw [e3, e2, e1]; simp [hint, hfc]
  · intro r m hr; simp [update, hr]

/-- The avatar is mid-traversal of a leg: walking toward `t` with pending
waypoints `rest`, the leg timer started at `st`, and the fixed 500 duration. -/
def inLeg (s : AvatarState) (t : Vector3) (rest : List Vector3) (st : ℚ) : Prop :=
  s.isWalking = true ∧ s.currentTarget = some t ∧ s.currentPath = rest ∧
  s.moveStartTime = st ∧ s.moveDuration = 500

theorem walkTo_inLeg (s : AvatarState) (w : Vector3) (ws : List Vector3)
    (t0 : ℚ) (hdur : s.moveDuration = 500) :
    inLeg (walkTo s (w :: ws) t0) w ws t0 := by
  refine ⟨rfl, rfl, rfl, rfl, hdur⟩

theorem update_midLeg_inLeg (s : AvatarState) (t : Vector3) (rest : List Vector3)
    (st n : ℚ) (hs : inLeg s t rest st) (hn : n - st < 500) :
    inLeg (update s n) t rest st := by
  obtain ⟨hw, ht, hp, hst, hd⟩ := hs
  have hdur : 0 < s.moveDuration := by rw [hd]; norm_num
  have hn2 : n - s.moveStartTime < s.moveDuration := by rw [hst, hd]; exact hn
  rw [update_midLeg s t n hw ht hdur hn2]
  exact ⟨hw, ht, hp, hst, hd⟩

theorem applyUpdates_inLeg (ts : List ℚ) (s : AvatarState) (t : Vector3)
    (rest : List Vector3) (st : ℚ) (hs : inLeg s t rest st)
    (hts : ∀ x ∈ ts, x - st < 500) :
    inLeg (applyUpdates s ts) t rest st := by
  induction ts generalizing s with
  | nil => exact hs
  | cons a as ih =>
    exact ih (update s a)
      (update_midLeg_inLeg s t rest st a hs (hts a (by simp)))
      (fun x hx => hts x (by simp [hx]))

/-- Characterization of a leg-completing `update` (elapsed at or past the
duration) when further waypoints remain: the position snaps to the leg target,
the next waypoint is popped, the direction is recomputed from the snapped
position, and the leg timer restarts at `now`. -/
theorem update_completeLeg_cons_eq (s : AvatarState) (t w : Vector3)
    (ws : List Vector3) (now : ℚ)
    (hw : s.isWalking = true) (ht : s.currentTarget = some t)
    (hp : s.currentPath = w :: ws) (hdur : 0 < s.moveDuration)
    (hn : s.moveDuration ≤ now - s.moveStartTime) :
    update s now =
      { s with
        position := t
        currentPath := ws
        currentTarget := some w
        direction := calculateDirection t w s.direction
        moveStartTime := now
        moveStartPos := t
        frameCounter := 0
        frameUpdateCounter := 0 } := by
  have hprog : 1 ≤ (now - s.moveStartTime) / s.moveDuration :=
    (one_le_div hdur).mpr hn
  have hmin : min ((now - s.moveStartTime) / s.moveDuration) 1 = 1 :=
    min_eq_right hprog
  simp only [update, hw, Bool.true_eq_false, if_false, ht, hp, hmin, le_refl,
    if_true]

/-- Characterization of the final leg-completing `update` (no waypoints left):
the position snaps to the leg target and `stop()` runs. -/
theorem update_completeLeg_nil_eq (s : AvatarState) (t : Vector3) (now : ℚ)
    (hw : s.isWalking = true) (ht : s.currentTarget = some t)
    (hp : s.currentPath = []) (hdur : 0 < s.moveDuration)
    (hn : s.moveDuration ≤ now - s.moveStartTime) :
    update s now = stop { s with position := t } := by
  have hprog : 1 ≤ (now - s.moveStartTime) / s.moveDuration :=
    (one_le_div hdur).mpr hn
  have hmin : min ((now - s.moveStartTime) / s.moveDuration) 1 = 1 :=
    min_eq_right hprog
  simp only [update, hw, Bool.true_eq_false, if_false, ht, hp, hmin, le_refl,
    if_true]

theorem update_not_walking (s : AvatarState) (n : ℚ)
    (h : s.isWalking = false) : update s n = s := by
  simp [update, h]

theorem applyUpdates_not_walking (ts : List ℚ) (s : AvatarState)
    (h : s.isWalking = false) : applyUpdates s ts = s := by
  induction ts generalizing s with
  | nil => rfl
  | cons a as ih =>
    show applyUpdates (update s a) as = s
    rw [update_not_walking s a h, ih s h]

/-- Claim C1: a `walkTo` with a 3-waypoint path followed by any sequence of
`update` calls in which each leg runs to completion (arbitrary mid-leg updates
`ts1`, `ts2`, `ts3` below the leg duration, then a completing call `u1`, `u2`,
`u3` at or past it, spanning more than 3 leg durations) ends Idle with the
continuous position exactly at the final waypoint; each leg-completing call
snaps the position exactly to that leg's target before the next leg starts,
and any further updates after arrival change nothing. -/
theorem walkTo_three_waypoints_arrival (s : AvatarState) (w1 w2 w3 : Vector3)
    (t0 : ℚ) (hdur : s.moveDuration = 500)
    (ts1 ts2 ts3 ts4 : List ℚ) (u1 u2 u3 : ℚ)
    (hts1 : ∀ x ∈ ts1, x - t0 < 500) (hu1 : 500 ≤ u1 - t0)
    (hts2 : ∀ x ∈ ts2, x - u1 < 500) (hu2 : 500 ≤ u2 - u1)
    (hts3 : ∀ x ∈ ts3, x - u2 < 500) (hu3 : 500 ≤ u3 - u2) :
    (update (applyUpdates (walkTo s [w1, w2, w3] t0) ts1) u1).position = w1 ∧
    isMoving (update (applyUpdates (walkTo s [w1, w2, w3] t0) ts1) u1) = true ∧
    (update (applyUpdates
      (update (applyUpdates (walkTo s [w1, w2, w3] t0) ts1) u1) ts2) u2).position
      = w2 ∧
    (update (applyUpdates (update (applyUpdates
      (update (applyUpdates (walkTo s [w1, w2, w3] t0) ts1) u1) ts2) u2) ts3) u3)
      = stop { (applyUpdates (update (applyUpdates
          (update (applyUpdates (walkTo s [w1, w2, w3] t0) ts1) u1) ts2) u2) ts3)
          with position := w3 } ∧
    ((update (applyUpdates (update (applyUpdates
      (update (applyUpdates (walkTo s [w1, w2, w3] t0) ts1) u1) ts2) u2) ts3)
      u3).position : Vector3) = w3 ∧
    isMoving (update (applyUpdates (update (applyUpdates
      (update (applyUpdates (walkTo s [w1, w2, w3] t0) ts1) u1) ts2) u2) ts3) u3)
      = false ∧
    applyUpdates (update (applyUpdates (update (applyUpdates
      (update (applyUpdates (walkTo s [w1, w2, w3] t0) ts1) u1) ts2) u2) ts3) u3)
      ts4
      = update (applyUpdates (update (applyUpdates
          (update (applyUpdates (walkTo s [w1, w2, w3] t0) ts1) u1) ts2) u2) ts3)
          u3 := by
  have five : (0 : ℚ) < 500 := by norm_num
  -- leg 1: arbitrary mid-leg updates keep the leg, then u1 completes it
  have L0 : inLeg (applyUpdates (walkTo s [w1, w2, w3] t0) ts1) w1 [w2, w3] t0 :=
    applyUpdates_inLeg ts1 _ w1 [w2, w3] t0
      (walkTo_inLeg s w1 [w2, w3] t0 hdur) hts1
  obtain ⟨hw0, ht0, hp0, hst0, hd0⟩ := L0
  have e1 := update_completeLeg_cons_eq _ w1 w2 [w3] u1 hw0 ht0 hp0
    (by rw [hd0]; exact five) (by rw [hd0, hst0]; exact hu1)
  have ha1 : (update (applyUpdates (walkTo s [w1, w2, w3] t0) ts1) u1).position
      = w1 := by rw [e1]
  have L1 : inLeg (update (applyUpdates (walkTo s [w1, w2, w3] t0) ts1) u1)
      w2 [w3] u1 := by
    rw [e1]; exact ⟨hw0, rfl, rfl, rfl, hd0⟩
  -- leg 2
  have L1b := applyUpdates_inLeg ts2 _ w2 [w3] u1 L1 hts2
  obtain ⟨hw1, ht1, hp1, hst1, hd1⟩ := L1b
  have e2 := update_completeLeg_cons_eq _ w2 w3 [] u2 hw1 ht1 hp1
    (by rw [hd1]; exact five) (by rw [hd1, hst1]; exact hu2)
  have ha2 : (update (applyUpdates
      (update (applyUpdates (walkTo s [w1, w2, w3] t0) ts1) u1) ts2) u2).position
      = w2 := by rw [e2]
  have L2 : inLeg (update (applyUpdates
      (update (applyUpdates (walkTo s [w1, w2, w3] t0) ts1) u1) ts2) u2)
      w3 [] u2 := by
    rw [e2]; exact ⟨hw1, rfl, rfl, rfl, hd1⟩
  -- leg 3: completes to Idle
  have L2b := applyUpdates_inLeg ts3 _ w3 [] u2 L2 hts3
  obtain ⟨hw2, ht2, hp2, hst2, hd2⟩ := L2b
  have e3 := update_completeLeg_nil_eq _ w3 u3 hw2 ht2 hp2
    (by rw [hd2]; exact five) (by rw [hd2, hst2]; exact hu3)
  refine ⟨ha1, ?_, ha2, e3, ?_, ?_, ?_⟩
  · rw [e1]; exact hw0
  · rw [e3]; rfl
  · rw [e3]; rfl
  · exact applyUpdates_not_walking ts4 _ (by rw [e3]; rfl)

/-- Claim C1 witness: from a fresh avatar at the origin, a walk along
(1,0) → (1,1) → (2,1) at time 0 with mid-leg updates at 100, 200 and 1200 and
completing updates at 505, 1005, 1505 arrives Idle exactly at (2,1). -/
theorem walkTo_three_waypoints_arrival_witness :
    (update (applyUpdates (update (applyUpdates
      (update (applyUpdates (walkTo (mkAvatar 0 0 0)
        [⟨1, 0, 0⟩, ⟨1, 1, 0⟩, ⟨2, 1, 0⟩] 0) [100, 200]) 505) []) 1005)
      [1200]) 1505).position = ⟨2, 1, 0⟩ ∧
    isMoving (update (applyUpdates (update (applyUpdates
      (update (applyUpdates (walkTo (mkAvatar 0 0 0)
        [⟨1, 0, 0⟩, ⟨1, 1, 0⟩, ⟨2, 1, 0⟩] 0) [100, 200]) 505) []) 1005)
      [1200]) 1505) = false := by
  have h := walkTo_three_waypoints_arrival (mkAvatar 0 0 0)
    ⟨1, 0, 0⟩ ⟨1, 1, 0⟩ ⟨2, 1, 0⟩ 0 (by norm_num [mkAvatar])
    [100, 200] [] [1200] [2000] 505 1005 1505
    (by intro x hx; simp at hx; rcases hx with rfl | rfl <;> norm_num)
    (by norm_num)
    (by intro x hx; simp at hx)
    (by norm_num)
    (by intro x hx; simp at hx; subst hx; norm_num)
    (by norm_num)
  exact ⟨h.2.2.2.2.1, h.2.2.2.2.2.1⟩

/-- Claim C3 witness: a freshly started walk (cadence counter 0) updated three
times mid-leg advances the frame from 0 to 1 exactly at the third call. -/
theorem frame_cadence_three_witness :
    (update (update (update
      { mkAvatar 0 0 0 with isWalking := true, currentTarget := some ⟨1, 0, 0⟩ }
      10) 20) 30).frameCounter = 1 := by
  have h := (frame_cadence_three
    { mkAvatar 0 0 0 with isWalking := true, currentTarget := some ⟨1, 0, 0⟩ }
    ⟨1, 0, 0⟩ 10 20 30 rfl rfl rfl rfl (by norm_num [mkAvatar])
    (by norm_num [mkAvatar]) (by norm_num [mkAvatar]) (by norm_num [mkAvatar])).2.2.1
  rw [h]
  norm_num [mkAvatar]

/-- Claim C8: the screen position computed by `updateScreenPosition` via
floor-decomposition (tileToScreen of the floored tile plus a fractional
offset) equals the direct affine projection
`(32x - 32y + 32 + C, 16x + 16y - 32z)` with the direction-dependent constant
`C = MANUAL_OFFSET_X`; hence it is continuous in (x, y) with no discontinuity
at integer tile boundaries, advancing by (+32, +16) per unit of x and
(-32, +16) per unit of y; and the inline door-mask tile base is exactly
`tileToScreen` at tile (doorX + 1, doorY). -/
theorem avatarScreenPos_affine (p : Vector3) (d : ℤ) (dx dy mx my mz : ℚ) :
    avatarScreenPos p d =
      (32 * p.x - 32 * p.y + 32 + manualOffsetX d,
       16 * p.x + 16 * p.y - 32 * p.z) ∧
    (avatarScreenPos ⟨p.x + dx, p.y, p.z⟩ d).1 - (avatarScreenPos p d).1
      = 32 * dx ∧
    (avatarScreenPos ⟨p.x + dx, p.y, p.z⟩ d).2 - (avatarScreenPos p d).2
      = 16 * dx ∧
    (avatarScreenPos ⟨p.x, p.y + dy, p.z⟩ d).1 - (avatarScreenPos p d).1
      = -32 * dy ∧
    (avatarScreenPos ⟨p.x, p.y + dy, p.z⟩ d).2 - (avatarScreenPos p d).2
      = 16 * dy ∧
    doorMaskTileBase mx my mz = tileToScreen (mx + 1) my mz := by
  refine ⟨?_, ?_, ?_, ?_, ?_, ?_⟩ <;>
    simp only [avatarScreenPos, tileToScreen, doorMaskTileBase, Prod.mk.injEq] <;>
    first
      | (constructor <;> ring)
      | ring

/-- Claim C9: with the configured height in 0..9, every `onClick` edit keeps
every tile height in 0..9; UP adds exactly 1 and only on a walkable tile of
height below 9 (otherwise it leaves the room untouched), and DOWN subtracts
exactly 1 and only on a walkable tile of height above 0 (otherwise it leaves
the room untouched). -/
theorem onClick_heights_in_range (cfg : FloorplanConfig) (room : RoomData)
    (gx gy : ℕ)
    (hcfg : 0 ≤ cfg.currentHeight ∧ cfg.currentHeight ≤ 9)
    (hroom : heightsInRange room) :
    heightsInRange (onClick cfg room gx gy) ∧
    (cfg.currentAction = FloorAction.UP →
      (((room.tiles gy gx).walkable = true ∧ (room.tiles gy gx).height < 9) →
        ((onClick cfg room gx gy).tiles gy gx).height
          = (room.tiles gy gx).height + 1) ∧
      (¬((room.tiles gy gx).walkable = true ∧ (room.tiles gy gx).height < 9) →
        onClick cfg room gx gy = room)) ∧
    (cfg.currentAction = FloorAction.DOWN →
      (((room.tiles gy gx).walkable = true ∧ (room.tiles gy gx).height > 0) →
        ((onClick cfg room gx gy).tiles gy gx).height
          = (room.tiles gy gx).height - 1) ∧
      (¬((room.tiles gy gx).walkable = true ∧ (room.tiles gy gx).height > 0) →
        onClick cfg room gx gy = room)) := by
  refine ⟨?_, ?_, ?_⟩
  · intro y x
    rcases hact : cfg.currentAction with _ | _ | _ | _ | _ <;>
      simp only [onClick, hact, setTile]
    · by_cases hc : y = gy ∧ x = gx
      · simp only [hc, if_pos, and_self, if_true]
        exact hcfg
      · simp only [if_neg hc]
        exact hroom y x
    · by_cases hc : y = gy ∧ x = gx
      · simp only [hc, and_self, if_true]
        norm_num
      · simp only [if_neg hc]
        exact hroom y x
    · by_cases hg : (room.tiles gy gx).walkable = true ∧ (room.tiles gy gx).height < 9
      · simp only [if_pos hg, setTile]
        by_cases hc : y = gy ∧ x = gx
        · simp only [hc, and_self, if_true]
          have := hroom gy gx
          constructor <;> [linarith [this.1]; linarith [hg.2]]
        · simp only [if_neg hc]
          exact hroom y x
      · simp only [if_neg hg]
        exact hroom y x
    · by_cases hg : (room.tiles gy gx).walkable = true ∧ (room.tiles gy gx).height > 0
      · simp only [if_pos hg, setTile]
        by_cases hc : y = gy ∧ x = gx
        · simp only [hc, and_self, if_true]
          have := hroom gy gx
          constructor <;> [linarith [hg.2]; linarith [this.2]]
        · simp only [if_neg hc]
          exact hroom y x
      · simp only [if_neg hg]
        exact hroom y x
    · by_cases hg : (room.tiles gy gx).walkable = true
      · simp only [if_pos hg]
        exact hroom y x
      · simp only [if_neg hg]
        exact hroom y x
  · intro hact
    constructor
    · intro hg
      simp only [onClick, hact, if_pos hg, setTile, and_self, if_true]
    · intro hg
      simp only [onClick, hact, if_neg hg]
  · intro hact
    constructor
    · intro hg
      simp only [onClick, hact, if_pos hg, setTile, and_self, if_true]
    · intro hg
      simp only [onClick, hact, if_neg hg]

/-- Claim C5 counterexample: in a reachable editor state (SET tile (0,0)
walkable, then DOOR there) the door invariant holds, yet the UNSET edit at
(0,0) leaves `doorTile` pointing at the now-unwalkable tile — the invariant is
not preserved by every edit. -/
theorem onClick_unset_breaks_door_invariant :
    doorWalkable
      (onClick ⟨FloorAction.DOOR, 0⟩
        (onClick ⟨FloorAction.SET, 0⟩ createEmptyRoom 0 0) 0 0) ∧
    (onClick ⟨FloorAction.UNSET, 0⟩
      (onClick ⟨FloorAction.DOOR, 0⟩
        (onClick ⟨FloorAction.SET, 0⟩ createEmptyRoom 0 0) 0 0) 0 0).doorTile
      = some (0, 0) ∧
    ((onClick ⟨FloorAction.UNSET, 0⟩
      (onClick ⟨FloorAction.DOOR, 0⟩
        (onClick ⟨FloorAction.SET, 0⟩ createEmptyRoom 0 0) 0 0) 0 0).tiles
      0 0).walkable = false := by
  refine ⟨?_, rfl, rfl⟩
  intro d hd
  have h0 : (onClick ⟨FloorAction.DOOR, 0⟩
      (onClick ⟨FloorAction.SET, 0⟩ createEmptyRoom 0 0) 0 0).doorTile
      = some (0, 0) := rfl
  rw [h0] at hd
  have hde : d = (0, 0) := (Option.some_inj.mp hd).symm
  subst hde
  rfl

/-- Claim C5 amended: the door-walkability invariant is preserved by every
edit except an UNSET applied at the doorTile coordinate itself: SET, UP, DOWN
and DOOR always preserve it, and UNSET preserves it whenever the clicked
coordinate is not the current doorTile. -/
theorem onClick_door_invariant_amended (cfg : FloorplanConfig)
    (room : RoomData) (gx gy : ℕ)
    (hdoor : doorWalkable room)
    (hsafe : cfg.currentAction = FloorAction.UNSET →
      room.doorTile ≠ some (gx, gy)) :
    doorWalkable (onClick cfg room gx gy) := by
  intro d hd
  rcases hact : cfg.currentAction with _ | _ | _ | _ | _
  · -- SET
    have hd2 : room.doorTile = some d := by simpa [onClick, hact] using hd
    by_cases hc : d.2 = gy ∧ d.1 = gx
    · simp [onClick, hact, setTile, hc.1, hc.2]
    · simp only [onClick, hact, setTile, if_neg hc]
      exact hdoor d hd2
  · -- UNSET
    have hd2 : room.doorTile = some d := by simpa [onClick, hact] using hd
    have hne : ¬(d.2 = gy ∧ d.1 = gx) := by
      rintro ⟨h2, h1⟩
      have hde : d = (gx, gy) := by cases d; simp_all
      exact hsafe hact (hde ▸ hd2)
    simp only [onClick, hact, setTile, if_neg hne]
    exact hdoor d hd2
  · -- UP
    by_cases hg : (room.tiles gy gx).walkable = true ∧ (room.tiles gy gx).height < 9
    · have hd2 : room.doorTile = some d := by simpa [onClick, hact, hg] using hd
      by_cases hc : d.2 = gy ∧ d.1 = gx
      · have hwd : (room.tiles d.2 d.1).walkable = true := hdoor d hd2
        simp only [onClick, hact, if_pos hg, setTile]
        simp only [hc.1, hc.2] at hwd ⊢
        simp [hwd]
      · simp only [onClick, hact, if_pos hg, setTile, if_neg hc]
        exact hdoor d hd2
    · have hd2 : room.doorTile = some d := by simpa [onClick, hact, hg] using hd
      simp only [onClick, hact, if_neg hg]
      exact hdoor d hd2
  · -- DOWN
    by_cases hg : (room.tiles gy gx).walkable = true ∧ (room.tiles gy gx).height > 0
    · have hd2 : room.doorTile = some d := by simpa [onClick, hact, hg] using hd
      by_cases hc : d.2 = gy ∧ d.1 = gx
      · have hwd : (room.tiles d.2 d.1).walkable = true := hdoor d hd2
        simp only [onClick, hact, if_pos hg, setTile]
        simp only [hc.1, hc.2] at hwd ⊢
        simp [hwd]
      · simp only [onClick, hact, if_pos hg, setTile, if_neg hc]
        exact hdoor d hd2
    · have hd2 : room.doorTile = some d := by simpa [onClick, hact, hg] using hd
      simp only [onClick, hact, if_neg hg]
      exact hdoor d hd2
  · -- DOOR
    by_cases hg : (room.tiles gy gx).walkable = true
    · have hd2 : some (gx, gy) = some d := by simpa [onClick, hact, hg] using hd
      have hde : d = (gx, gy) := (Option.some_inj.mp hd2).symm
      subst hde
      simp [onClick, hact, hg]
    · have hd2 : room.doorTile = some d := by simpa [onClick, hact, hg] using hd
      simp only [onClick, hact, if_neg hg]
      exact hdoor d hd2

/-- Claim C5 amended witness: UNSET at (1,1) — a coordinate other than the
door tile (0,0) — keeps the invariant in the reachable SET-then-DOOR room. -/
theorem onClick_door_invariant_amended_witness :
    doorWalkable
      (onClick ⟨FloorAction.UNSET, 0⟩
        (onClick ⟨FloorAction.DOOR, 0⟩
          (onClick ⟨FloorAction.SET, 0⟩ createEmptyRoom 0 0) 0 0) 1 1) := by
  apply onClick_door_invariant_amended
  · intro d hd
    have h0 : (onClick ⟨FloorAction.DOOR, 0⟩
        (onClick ⟨FloorAction.SET, 0⟩ createEmptyRoom 0 0) 0 0).doorTile
        = some (0, 0) := rfl
    rw [h0] at hd
    have hde : d = (0, 0) := (Option.some_inj.mp hd).symm
    subst hde
    rfl
  · intro _ hcontra
    have h0 : (onClick ⟨FloorAction.DOOR, 0⟩
        (onClick ⟨FloorAction.SET, 0⟩ createEmptyRoom 0 0) 0 0).doorTile
        = some (0, 0) := rfl
    rw [h0] at hcontra
    exact absurd (Option.some_inj.mp hcontra) (by decide)

/-- Claim C9 witness: raising the tile (0,0) of an empty room after setting it
walkable at height 0 keeps every height in range, and the UP edit adds 1. -/
theorem onClick_heights_in_range_witness :
    ((0 : ℤ) ≤ 3 ∧ (3 : ℤ) ≤ 9) ∧
    heightsInRange (onClick ⟨FloorAction.SET, 3⟩ createEmptyRoom 0 0) := by
  refine ⟨⟨by norm_num, by norm_num⟩, ?_⟩
  exact (onClick_heights_in_range ⟨FloorAction.SET, 3⟩ createEmptyRoom 0 0
    ⟨by norm_num, by norm_num⟩
    (fun y x => ⟨le_refl 0, by norm_num [createEmptyRoom]⟩)).1

end Habbo
